import Mathlib

/-!
The handler layer of mental-arts-api over a relational store.

A shallow embedding of `handlers/handlers.go` and `models/models.go`.

* The three record types are the Go structs of `models/models.go`.
* The relational store is three tables of rows (one row = the columns of an
  entity; the association slices `Posts` and `Comments` are not columns).
* Every call a handler makes on `h.db` is one storage call; it either takes
  effect as a whole or fails and leaves the store as it was.  A handler
  receives a fault schedule (`List Bool`): the k-th storage call of the
  handler fails with an infrastructure error (a lost connection, say) when
  the k-th entry is `true`; a schedule that has run out injects no further
  fault.  Record-not-found is not a fault: it is decided by the rows.
* A request body is represented by the result of decoding it: `none` when
  `BindJSON` reports an error, otherwise the keys that map to columns, each
  either carrying a value (`some`) or without effect on the field (`none`: the
  key is absent, or it is `null`, which `encoding/json` leaves without effect
  on a field that is not a pointer).  `PostBody` keeps the three states of a
  key apart, `PostBody.decode` is the step from the one to the other.
  Association arrays inside a request body (`posts`, `comments`) are not part
  of this development.
* A handler returns the response together with the store it leaves behind.
-/

namespace MentalArts

/-! ## models/models.go -/

/-- The Go struct `models.Comment`. -/
structure Comment where
  ID : Nat
  Text : String
  UserID : Nat
  PostID : Nat
  deriving DecidableEq, Repr

/-- The Go struct `models.Post`. -/
structure Post where
  ID : Nat
  Title : String
  Content : String
  UserID : Nat
  Comments : List Comment
  deriving DecidableEq, Repr

/-- The Go struct `models.User`. -/
structure User where
  ID : Nat
  Name : String
  Username : String
  Posts : List Post
  deriving DecidableEq, Repr

/-- The zero value of `models.User` (`var newUser models.User`). -/
def zeroUser : User := ⟨0, "", "", []⟩

/-- The zero value of `models.Post`. -/
def zeroPost : Post := ⟨0, "", "", 0, []⟩

/-- The zero value of `models.Comment`. -/
def zeroComment : Comment := ⟨0, "", 0, 0⟩

/-! ## Decoded request bodies -/

/-- A decoded User body: the column keys `id`, `name`, `username`. -/
structure UserJSON where
  id : Option Nat
  name : Option String
  username : Option String
  deriving DecidableEq, Repr

/-- A decoded Post body: the column keys `id`, `title`, `content`, `userID`;
`none` for a key that is absent or `null`. -/
structure PostJSON where
  id : Option Nat
  title : Option String
  content : Option String
  userID : Option Nat
  deriving DecidableEq, Repr

/-- A decoded Comment body: the keys `id`, `text`, `userID`, `postID`. -/
structure CommentJSON where
  id : Option Nat
  text : Option String
  userID : Option Nat
  postID : Option Nat
  deriving DecidableEq, Repr

/-- The effect of `c.BindJSON(&u)` with a well-formed body: a key that
carries a value overwrites the field, a key that is absent or `null` leaves
the field as it was. -/
def bindUser (u : User) (j : UserJSON) : User :=
  { ID := j.id.getD u.ID
    Name := j.name.getD u.Name
    Username := j.username.getD u.Username
    Posts := u.Posts }

/-- The effect of `c.BindJSON(&p)` on a Post. -/
def bindPost (p : Post) (j : PostJSON) : Post :=
  { ID := j.id.getD p.ID
    Title := j.title.getD p.Title
    Content := j.content.getD p.Content
    UserID := j.userID.getD p.UserID
    Comments := p.Comments }

/-- The effect of `c.BindJSON(&c)` on a Comment. -/
def bindComment (c : Comment) (j : CommentJSON) : Comment :=
  { ID := j.id.getD c.ID
    Text := j.text.getD c.Text
    UserID := j.userID.getD c.UserID
    PostID := j.postID.getD c.PostID }

/-- One key of a JSON object as the request carries it: not there, there
with `null`, or there with a value. -/
inductive JSONKey (α : Type) where
  | absent
  | null
  | value (a : α)
  deriving DecidableEq, Repr

/-- What `encoding/json` makes of a key for a field that is not a pointer: the
value when the key carries one; a key that is absent or `null` has no effect
on the field. -/
def JSONKey.decode {α : Type} : JSONKey α → Option α
  | .absent => none
  | .null => none
  | .value a => some a

/-- A Post body as the request carries it: the state of each of the keys
`id`, `title`, `content`, `userID`. -/
structure PostBody where
  id : JSONKey Nat
  title : JSONKey String
  content : JSONKey String
  userID : JSONKey Nat
  deriving DecidableEq, Repr

/-- The decoding of a Post body, key by key. -/
def PostBody.decode (b : PostBody) : PostJSON :=
  ⟨b.id.decode, b.title.decode, b.content.decode, b.userID.decode⟩

/-! ## Path identifiers: `strconv.Atoi` and the conversion `uint(n)` -/

/-- The value of a decimal digit, `none` for any other character. -/
def digitVal (c : Char) : Option Nat :=
  if 48 ≤ c.toNat ∧ c.toNat ≤ 57 then some (c.toNat - 48) else none

/-- Reads a run of decimal digits, most significant first. -/
def parseDigits : List Char → Nat → Option Nat
  | [], acc => some acc
  | c :: cs, acc =>
    match digitVal c with
    | none => none
    | some d => parseDigits cs (acc * 10 + d)

/-- The digits of a non-empty run, `none` when the run is empty. -/
def parseMagnitude (cs : List Char) : Option Nat :=
  if cs.isEmpty then none else parseDigits cs 0

/-- The Go function `strconv.Atoi` on a 64-bit platform: an optional sign, at
least one decimal digit, and a value that fits `int`; `none` is an error. -/
def Atoi (s : String) : Option Int :=
  match s.toList with
  | [] => none
  | c :: cs =>
    if c = '-' then
      match parseMagnitude cs with
      | none => none
      | some n => if n ≤ 2 ^ 63 then some (-(n : Int)) else none
    else if c = '+' then
      match parseMagnitude cs with
      | none => none
      | some n => if n < 2 ^ 63 then some (n : Int) else none
    else
      match parseMagnitude (c :: cs) with
      | none => none
      | some n => if n < 2 ^ 63 then some (n : Int) else none

/-- The Go conversion `uint(n)` of an `int` on a 64-bit platform. -/
def toUint (n : Int) : Nat := (n % 2 ^ 64).toNat

/-! ## The relational store -/

/-- A row of the users table. -/
structure UserRow where
  ID : Nat
  Name : String
  Username : String
  deriving DecidableEq, Repr

/-- A row of the posts table. -/
structure PostRow where
  ID : Nat
  Title : String
  Content : String
  UserID : Nat
  deriving DecidableEq, Repr

/-- The three tables. A row of the comments table is a `Comment`. -/
structure Store where
  users : List UserRow
  posts : List PostRow
  comments : List Comment
  deriving DecidableEq, Repr

/-- The store invariant kept by the primary keys: identifiers are non-zero
and unique within a table. -/
def Store.WF (st : Store) : Prop :=
  ((∀ u ∈ st.users, u.ID ≠ 0) ∧ (st.users.map (fun u => u.ID)).Nodup) ∧
  ((∀ p ∈ st.posts, p.ID ≠ 0) ∧ (st.posts.map (fun p => p.ID)).Nodup) ∧
  ((∀ c ∈ st.comments, c.ID ≠ 0) ∧ (st.comments.map (fun c => c.ID)).Nodup)

/-- The errors a storage call reports. -/
inductive DBError where
  | ErrRecordNotFound
  | ErrMissingWhereClause
  | ErrDuplicatedKey
  | infrastructure
  deriving DecidableEq, Repr

/-- The fault of the next storage call under a schedule. -/
def nextFault (faults : List Bool) : Bool := faults.headD false

/-- Modelled from the spec: the identifier the storage layer assigns on
creation ("identifiers are assigned by the storage layer on creation"); taken
here as one more than the largest identifier in the table. -/
def nextID (ids : List Nat) : Nat := ids.foldl max 0 + 1

/-- The columns of a user record. -/
def User.toRow (u : User) : UserRow := ⟨u.ID, u.Name, u.Username⟩

/-- The columns of a post record. -/
def Post.toRow (p : Post) : PostRow := ⟨p.ID, p.Title, p.Content, p.UserID⟩

/-- A user record read from a row, with the given preloaded posts. -/
def UserRow.toUser (r : UserRow) (posts : List Post) : User :=
  ⟨r.ID, r.Name, r.Username, posts⟩

/-- A post record read from a row, with the given preloaded comments. -/
def PostRow.toPost (r : PostRow) (comments : List Comment) : Post :=
  ⟨r.ID, r.Title, r.Content, r.UserID, comments⟩

/-- Modelled from the spec: the storage adapter's find-by-id on users,
`h.db.First(&user, id)`: the row whose identifier equals the key, or
record-not-found. -/
def dbFirstUser (st : Store) (fault : Bool) (id : Int) : Except DBError User :=
  if fault then .error .infrastructure
  else
    match st.users.find? (fun r => decide ((r.ID : Int) = id)) with
    | none => .error .ErrRecordNotFound
    | some r => .ok (r.toUser [])

/-- Modelled from the spec: find-by-id on posts, `h.db.First(&post, id)`. -/
def dbFirstPost (st : Store) (fault : Bool) (id : Int) : Except DBError Post :=
  if fault then .error .infrastructure
  else
    match st.posts.find? (fun r => decide ((r.ID : Int) = id)) with
    | none => .error .ErrRecordNotFound
    | some r => .ok (r.toPost [])

/-- Modelled from the spec: find-by-id on comments,
`h.db.First(&comment, id)`. -/
def dbFirstComment (st : Store) (fault : Bool) (id : Int) : Except DBError Comment :=
  if fault then .error .infrastructure
  else
    match st.comments.find? (fun r => decide ((r.ID : Int) = id)) with
    | none => .error .ErrRecordNotFound
    | some r => .ok r

/-- The comments of a post: the rows whose `PostID` is the post's identifier. -/
def commentsOf (st : Store) (postID : Nat) : List Comment :=
  st.comments.filter (fun c => decide (c.PostID = postID))

/-- The posts of a user, without their comments. -/
def postsOf (st : Store) (userID : Nat) : List Post :=
  (st.posts.filter (fun p => decide (p.UserID = userID))).map (fun r => r.toPost [])

/-- The posts of a user, each with its comments. -/
def postsWithCommentsOf (st : Store) (userID : Nat) : List Post :=
  (st.posts.filter (fun p => decide (p.UserID = userID))).map
    (fun r => r.toPost (commentsOf st r.ID))

/-- Modelled from the spec: find-with-related,
`h.db.Preload("Posts").First(&user, id)`. -/
def dbFirstUserPreloadPosts (st : Store) (fault : Bool) (id : Int) : Except DBError User :=
  if fault then .error .infrastructure
  else
    match st.users.find? (fun r => decide ((r.ID : Int) = id)) with
    | none => .error .ErrRecordNotFound
    | some r => .ok (r.toUser (postsOf st r.ID))

/-- Modelled from the spec: find-with-related,
`h.db.Preload("Posts.Comments").First(&user, id)`. -/
def dbFirstUserPreloadPostsComments (st : Store) (fault : Bool) (id : Int) :
    Except DBError User :=
  if fault then .error .infrastructure
  else
    match st.users.find? (fun r => decide ((r.ID : Int) = id)) with
    | none => .error .ErrRecordNotFound
    | some r => .ok (r.toUser (postsWithCommentsOf st r.ID))

/-- Modelled from the spec: find-with-related,
`h.db.Preload("Comments").First(&post, id)`. -/
def dbFirstPostPreloadComments (st : Store) (fault : Bool) (id : Int) : Except DBError Post :=
  if fault then .error .infrastructure
  else
    match st.posts.find? (fun r => decide ((r.ID : Int) = id)) with
    | none => .error .ErrRecordNotFound
    | some r => .ok (r.toPost (commentsOf st r.ID))

/-- Modelled from the spec: find-all on users, `h.db.Find(&users)`. -/
def dbFindUsers (st : Store) (fault : Bool) : Except DBError (List User) :=
  if fault then .error .infrastructure
  else .ok (st.users.map (fun r => r.toUser []))

/-- Modelled from the spec: create on users, `h.db.Create(&user)`. A record
with identifier zero gets its identifier from the storage layer; a record that
carries an identifier is inserted under it unless the identifier is taken.
The record comes back as the storage layer leaves it, identifier filled in. -/
def dbCreateUser (st : Store) (fault : Bool) (u : User) : Except DBError (User × Store) :=
  if fault then .error .infrastructure
  else if u.ID = 0 then
    let u1 := { u with ID := nextID (st.users.map (fun r => r.ID)) }
    .ok (u1, { st with users := st.users ++ [u1.toRow] })
  else if st.users.any (fun r => decide (r.ID = u.ID)) then .error .ErrDuplicatedKey
  else .ok (u, { st with users := st.users ++ [u.toRow] })

/-- Modelled from the spec: create on posts, `h.db.Create(&post)`. -/
def dbCreatePost (st : Store) (fault : Bool) (p : Post) : Except DBError (Post × Store) :=
  if fault then .error .infrastructure
  else if p.ID = 0 then
    let p1 := { p with ID := nextID (st.posts.map (fun r => r.ID)) }
    .ok (p1, { st with posts := st.posts ++ [p1.toRow] })
  else if st.posts.any (fun r => decide (r.ID = p.ID)) then .error .ErrDuplicatedKey
  else .ok (p, { st with posts := st.posts ++ [p.toRow] })

/-- Modelled from the spec: create on comments, `h.db.Create(&comment)`. -/
def dbCreateComment (st : Store) (fault : Bool) (c : Comment) :
    Except DBError (Comment × Store) :=
  if fault then .error .infrastructure
  else if c.ID = 0 then
    let c1 := { c with ID := nextID (st.comments.map (fun r => r.ID)) }
    .ok (c1, { st with comments := st.comments ++ [c1] })
  else if st.comments.any (fun r => decide (r.ID = c.ID)) then .error .ErrDuplicatedKey
  else .ok (c, { st with comments := st.comments ++ [c] })

/-- Modelled from the spec: an upsert ("a write that inserts a new record if
the identifier is absent, or overwrites the existing record if present"). -/
def upsertBy {α : Type} (key : α → Nat) (row : α) (table : List α) : List α :=
  if table.any (fun r => decide (key r = key row)) then
    table.map (fun r => if key r = key row then row else r)
  else table ++ [row]

/-- Modelled from the spec: update/upsert on posts, `h.db.Save(&post)`. As
the ORM's `Save` does, a record whose primary key is zero is created (it gets
a fresh identifier); otherwise the row under the record's identifier is
overwritten with all columns, and inserted when there is no such row. -/
def dbSavePost (st : Store) (fault : Bool) (p : Post) : Except DBError (Post × Store) :=
  if fault then .error .infrastructure
  else if p.ID = 0 then
    let p1 := { p with ID := nextID (st.posts.map (fun r => r.ID)) }
    .ok (p1, { st with posts := st.posts ++ [p1.toRow] })
  else .ok (p, { st with posts := upsertBy (fun r => r.ID) p.toRow st.posts })

/-- Modelled from the spec: update/upsert on comments,
`h.db.Save(&comment)`. -/
def dbSaveComment (st : Store) (fault : Bool) (c : Comment) :
    Except DBError (Comment × Store) :=
  if fault then .error .infrastructure
  else if c.ID = 0 then
    let c1 := { c with ID := nextID (st.comments.map (fun r => r.ID)) }
    .ok (c1, { st with comments := st.comments ++ [c1] })
  else .ok (c, { st with comments := upsertBy (fun r => r.ID) c st.comments })

/-- Modelled from the spec: delete on users, `h.db.Delete(&user)`: removes
the row under the record's identifier; a record whose primary key is zero
gives the ORM no condition to delete by and is refused. Deleting an
identifier that is not stored is not an error. -/
def dbDeleteUser (st : Store) (fault : Bool) (u : User) : Except DBError Store :=
  if fault then .error .infrastructure
  else if u.ID = 0 then .error .ErrMissingWhereClause
  else .ok { st with users := st.users.filter (fun r => decide (r.ID ≠ u.ID)) }

/-- Modelled from the spec: delete on posts, `h.db.Delete(&post)`. The
comments table is not touched. -/
def dbDeletePost (st : Store) (fault : Bool) (p : Post) : Except DBError Store :=
  if fault then .error .infrastructure
  else if p.ID = 0 then .error .ErrMissingWhereClause
  else .ok { st with posts := st.posts.filter (fun r => decide (r.ID ≠ p.ID)) }

/-- Modelled from the spec: delete on comments, `h.db.Delete(&comment)`. -/
def dbDeleteComment (st : Store) (fault : Bool) (c : Comment) : Except DBError Store :=
  if fault then .error .infrastructure
  else if c.ID = 0 then .error .ErrMissingWhereClause
  else .ok { st with comments := st.comments.filter (fun r => decide (r.ID ≠ c.ID)) }

/-! ## handlers/handlers.go -/

/-- The JSON value a handler passes to `c.JSON`. -/
inductive Body where
  | parseError
  | dbError (e : DBError)
  | dbErrorObject (e : DBError)
  | text (s : String)
  | user (u : User)
  | users (us : List User)
  | posts (ps : List Post)
  | post (p : Post)
  | comment (c : Comment)
  deriving DecidableEq, Repr

/-- The status code and JSON value of `c.JSON(status, value)`. -/
structure Response where
  status : Nat
  body : Body
  deriving DecidableEq, Repr

/-- The handler `createUser`. -/
def createUser (st : Store) (faults : List Bool) (body : Option UserJSON) : Response × Store :=
  match body with
  | none => (⟨400, .parseError⟩, st)
  | some j =>
    let newUser := { bindUser zeroUser j with ID := 0 }
    match dbCreateUser st (nextFault faults) newUser with
    | .error e => (⟨500, .dbError e⟩, st)
    | .ok (u, st1) => (⟨200, .user u⟩, st1)

/-- The handler `getUsers`. -/
def getUsers (st : Store) (faults : List Bool) : Response × Store :=
  match dbFindUsers st (nextFault faults) with
  | .error e => (⟨500, .dbError e⟩, st)
  | .ok users => (⟨200, .users users⟩, st)

/-- The handler `getUser`. -/
def getUser (st : Store) (faults : List Bool) (idParam : String) : Response × Store :=
  match Atoi idParam with
  | none => (⟨400, .parseError⟩, st)
  | some id =>
    match dbFirstUser st (nextFault faults) id with
    | .error .ErrRecordNotFound => (⟨404, .dbError .ErrRecordNotFound⟩, st)
    | .error e => (⟨500, .dbError e⟩, st)
    | .ok author => (⟨200, .user author⟩, st)

/-- The handler `getUserPosts`. -/
def getUserPosts (st : Store) (faults : List Bool) (idParam : String) : Response × Store :=
  match Atoi idParam with
  | none => (⟨400, .text "Invalid user ID"⟩, st)
  | some userID =>
    match dbFirstUserPreloadPosts st (nextFault faults) userID with
    | .error .ErrRecordNotFound => (⟨404, .text "User not found"⟩, st)
    | .error e => (⟨500, .dbError e⟩, st)
    | .ok user => (⟨200, .posts user.Posts⟩, st)

/-- The inner loop of `deleteUser`: `for _, comment := range post.Comments`.
Returns the error that stopped the loop, if any, the store as the loop left
it and the rest of the fault schedule. -/
def deleteCommentsLoop : List Comment → Store → List Bool → Option DBError × Store × List Bool
  | [], st, faults => (none, st, faults)
  | comment :: rest, st, faults =>
    match dbDeleteComment st (nextFault faults) comment with
    | .error e => (some e, st, faults.tail)
    | .ok st1 => deleteCommentsLoop rest st1 faults.tail

/-- The first pass of `deleteUser`: `for _, post := range user.Posts` over
the comments of each post. -/
def deleteAllCommentsLoop : List Post → Store → List Bool → Option DBError × Store × List Bool
  | [], st, faults => (none, st, faults)
  | post :: rest, st, faults =>
    match deleteCommentsLoop post.Comments st faults with
    | (some e, st1, faults1) => (some e, st1, faults1)
    | (none, st1, faults1) => deleteAllCommentsLoop rest st1 faults1

/-- The second pass of `deleteUser`: `for _, post := range user.Posts`
deleting each post. -/
def deletePostsLoop : List Post → Store → List Bool → Option DBError × Store × List Bool
  | [], st, faults => (none, st, faults)
  | post :: rest, st, faults =>
    match dbDeletePost st (nextFault faults) post with
    | .error e => (some e, st, faults.tail)
    | .ok st1 => deletePostsLoop rest st1 faults.tail

/-- The handler `deleteUser`. -/
def deleteUser (st : Store) (faults : List Bool) (idParam : String) : Response × Store :=
  match Atoi idParam with
  | none => (⟨400, .text "Invalid user ID"⟩, st)
  | some userID =>
    match dbFirstUserPreloadPostsComments st (nextFault faults) userID with
    | .error .ErrRecordNotFound => (⟨404, .text "User not found"⟩, st)
    | .error e => (⟨500, .dbError e⟩, st)
    | .ok user =>
      match deleteAllCommentsLoop user.Posts st faults.tail with
      | (some e, st1, _) => (⟨500, .dbError e⟩, st1)
      | (none, st1, faults1) =>
        match deletePostsLoop user.Posts st1 faults1 with
        | (some e, st2, _) => (⟨500, .dbError e⟩, st2)
        | (none, st2, faults2) =>
          match dbDeleteUser st2 (nextFault faults2) user with
          | .error e => (⟨500, .dbError e⟩, st2)
          | .ok st3 => (⟨200, .text "User and associated data deleted successfully"⟩, st3)

/-- The handler `createPost`. -/
def createPost (st : Store) (faults : List Bool) (body : Option PostJSON) : Response × Store :=
  match body with
  | none => (⟨400, .parseError⟩, st)
  | some j =>
    let newPost := bindPost zeroPost j
    let userID := newPost.UserID
    match dbFirstUser st (nextFault faults) (userID : Int) with
    | .error _ => (⟨400, .text "Invalid UserID"⟩, st)
    | .ok _ =>
      let newPost := { newPost with ID := 0 }
      match dbCreatePost st (nextFault faults.tail) newPost with
      | .error e => (⟨500, .dbError e⟩, st)
      | .ok (p, st1) => (⟨200, .post p⟩, st1)

/-- The handler `getPost`. -/
def getPost (st : Store) (faults : List Bool) (postIDParam : String) : Response × Store :=
  match Atoi postIDParam with
  | none => (⟨400, .text "Invalid post ID"⟩, st)
  | some postID =>
    match dbFirstPostPreloadComments st (nextFault faults) postID with
    | .error .ErrRecordNotFound => (⟨404, .text "Post not found"⟩, st)
    | .error e => (⟨500, .dbError e⟩, st)
    | .ok post => (⟨200, .post post⟩, st)

/-- The handler `getPostComments`. -/
def getPostComments (st : Store) (faults : List Bool) (postIDParam : String) :
    Response × Store :=
  match Atoi postIDParam with
  | none => (⟨400, .text "Invalid post ID"⟩, st)
  | some postID =>
    match dbFirstPostPreloadComments st (nextFault faults) postID with
    | .error .ErrRecordNotFound => (⟨404, .text "Post not found"⟩, st)
    | .error e => (⟨500, .dbError e⟩, st)
    | .ok postWithComments => (⟨200, .post postWithComments⟩, st)

/-- The handler `updatePost`. -/
def updatePost (st : Store) (faults : List Bool) (postIDParam : String)
    (body : Option PostJSON) : Response × Store :=
  match Atoi postIDParam with
  | none => (⟨400, .text "Invalid post ID"⟩, st)
  | some postID =>
    match dbFirstPost st (nextFault faults) postID with
    | .error .ErrRecordNotFound => (⟨404, .text "Post not found"⟩, st)
    | .error e => (⟨500, .dbError e⟩, st)
    | .ok loaded =>
      match body with
      | none => (⟨400, .parseError⟩, st)
      | some j =>
        let updatedPost := bindPost loaded j
        match dbSavePost st (nextFault faults.tail) updatedPost with
        | .error e => (⟨500, .dbError e⟩, st)
        | .ok (p, st1) => (⟨200, .post p⟩, st1)

/-- The handler `deletePost`. -/
def deletePost (st : Store) (faults : List Bool) (idParam : String) : Response × Store :=
  match Atoi idParam with
  | none => (⟨400, .text "Invalid post ID"⟩, st)
  | some postID =>
    match dbFirstPost st (nextFault faults) postID with
    | .error .ErrRecordNotFound => (⟨404, .text "Post not found"⟩, st)
    | .error e => (⟨500, .dbError e⟩, st)
    | .ok post =>
      match dbDeletePost st (nextFault faults.tail) post with
      | .error e => (⟨500, .dbError e⟩, st)
      | .ok st1 => (⟨200, .text "Post deleted successfully"⟩, st1)

/-- The handler `createComment`. -/
def createComment (st : Store) (faults : List Bool) (body : Option CommentJSON) :
    Response × Store :=
  match body with
  | none => (⟨400, .parseError⟩, st)
  | some j =>
    let newComment := { bindComment zeroComment j with ID := 0 }
    match dbCreateComment st (nextFault faults) newComment with
    | .error e => (⟨500, .dbError e⟩, st)
    | .ok (c, st1) => (⟨200, .comment c⟩, st1)

/-- The handler `getComment`. -/
def getComment (st : Store) (faults : List Bool) (commentIDParam : String) :
    Response × Store :=
  match Atoi commentIDParam with
  | none => (⟨400, .text "Invalid comment ID"⟩, st)
  | some commentID =>
    match dbFirstComment st (nextFault faults) commentID with
    | .error .ErrRecordNotFound => (⟨404, .text "Comment not found"⟩, st)
    | .error e => (⟨500, .dbError e⟩, st)
    | .ok comment => (⟨200, .comment comment⟩, st)

/-- The handler `updateComment`. -/
def updateComment (st : Store) (faults : List Bool) (commentIDParam : String)
    (body : Option CommentJSON) : Response × Store :=
  match Atoi commentIDParam with
  | none => (⟨400, .text "Invalid comment ID"⟩, st)
  | some commentID =>
    match body with
    | none => (⟨400, .parseError⟩, st)
    | some j =>
      let updatedComment := { bindComment zeroComment j with ID := toUint commentID }
      match dbSaveComment st (nextFault faults) updatedComment with
      | .error e => (⟨500, .dbErrorObject e⟩, st)
      | .ok (c, st1) => (⟨200, .comment c⟩, st1)

/-- The handler `deleteComment`. -/
def deleteComment (st : Store) (faults : List Bool) (commentIDParam : String) :
    Response × Store :=
  match Atoi commentIDParam with
  | none => (⟨400, .text "Invalid comment ID"⟩, st)
  | some commentID =>
    match dbFirstComment st (nextFault faults) commentID with
    | .error .ErrRecordNotFound => (⟨404, .text "Comment not found"⟩, st)
    | .error e => (⟨500, .dbError e⟩, st)
    | .ok deletedComment =>
      match dbDeleteComment st (nextFault faults.tail) deletedComment with
      | .error e => (⟨500, .dbError e⟩, st)
      | .ok st1 => (⟨200, .comment deletedComment⟩, st1)

/-- The schedule that injects no fault. -/
def noFaults : List Bool := []

/-- A store for examples: user 1 owns post 1, which carries comment 1. -/
def sampleStore : Store :=
  { users := [⟨1, "A", "a"⟩]
    posts := [⟨1, "T", "C", 1⟩]
    comments := [⟨1, "hi", 0, 1⟩] }

/-- A store for examples: user 1 owns posts 1 and 2, which carry comments 1
and 2. -/
def twoPostStore : Store :=
  { users := [⟨1, "A", "a"⟩]
    posts := [⟨1, "T", "C", 1⟩, ⟨2, "U", "D", 1⟩]
    comments := [⟨1, "hi", 0, 1⟩, ⟨2, "ho", 0, 2⟩] }

/-! ## Lemmas on the storage layer -/

theorem find_absent {α : Type} (f : α → Nat) (l : List α) (id : Int)
    (h : ∀ x ∈ l, (f x : Int) ≠ id) :
    l.find? (fun r => decide ((f r : Int) = id)) = none := by
  rw [List.find?_eq_none]
  intro x hx
  simpa using h x hx

theorem find_present {α : Type} (f : α → Nat) (l : List α) (x : α) (hx : x ∈ l)
    (hnd : (l.map f).Nodup) :
    l.find? (fun r => decide ((f r : Int) = (f x : Int))) = some x := by
  induction l with
  | nil => cases hx
  | cons a t ih =>
    rw [List.map_cons, List.nodup_cons] at hnd
    by_cases hax : a = x
    · subst hax
      simp
    · have hxt : x ∈ t := by
        rcases List.mem_cons.1 hx with h | h
        · exact absurd h.symm hax
        · exact h
      have hne : f a ≠ f x := by
        intro he
        exact hnd.1 (he ▸ List.mem_map_of_mem f hxt)
      have hne2 : ¬ ((f a : Int) = (f x : Int)) := by
        intro he
        exact hne (by exact_mod_cast he)
      rw [List.find?_cons_of_neg _ (by simpa using hne2)]
      exact ih hxt hnd.2

theorem Atoi_range (s : String) (n : Int) (h : Atoi s = some n) :
    -(2 : Int) ^ 63 ≤ n ∧ n < (2 : Int) ^ 63 := by
  unfold Atoi at h
  split at h
  · cases h
  · split_ifs at h with h1 h2
    · split at h
      · cases h
      · split_ifs at h with h3
        · cases h
          constructor
          · have : ((_ : Nat) : Int) ≤ ((2 ^ 63 : Nat) : Int) := Int.ofNat_le.2 h3
            push_cast at this
            omega
          · omega
    · split at h
      · cases h
      · split_ifs at h with h3
        · cases h
          constructor
          · omega
          · have : ((_ : Nat) : Int) < ((2 ^ 63 : Nat) : Int) := Int.ofNat_lt.2 h3
            push_cast at this
            omega
    · split at h
      · cases h
      · split_ifs at h with h3
        · cases h
          constructor
          · omega
          · have : ((_ : Nat) : Int) < ((2 ^ 63 : Nat) : Int) := Int.ofNat_lt.2 h3
            push_cast at this
            omega

theorem toUint_of_pos (s : String) (n : Int) (h : Atoi s = some n) (hpos : 0 < n) :
    toUint n = n.toNat := by
  have hr := Atoi_range s n h
  unfold toUint
  congr 1
  apply Int.emod_eq_of_lt <;> omega

theorem le_foldl_max (l : List Nat) (a : Nat) : a ≤ l.foldl max a := by
  induction l generalizing a with
  | nil => simp
  | cons b t ih =>
    simp only [List.foldl_cons]
    exact le_trans (le_max_left a b) (ih (max a b))

theorem mem_le_foldl_max (l : List Nat) (a x : Nat) (hx : x ∈ l) : x ≤ l.foldl max a := by
  induction l generalizing a with
  | nil => cases hx
  | cons b t ih =>
    simp only [List.foldl_cons]
    rcases List.mem_cons.1 hx with h | h
    · subst h
      exact le_trans (le_max_right a x) (le_foldl_max t (max a x))
    · exact ih (max a b) h

theorem nextID_fresh (ids : List Nat) : nextID ids ≠ 0 ∧ nextID ids ∉ ids := by
  constructor
  · unfold nextID
    omega
  · intro h
    have := mem_le_foldl_max ids 0 (nextID ids) h
    unfold nextID at this
    omega

/-! ## The example scenario of the specification -/

/-- On the empty store: creating user A gives id 1, a post of user 1 gives
id 1, a comment on post 1 gives id 1; deleting user 1 then removes all three
rows and fetching post 1 answers 404. -/
theorem example_scenario :
    createUser ⟨[], [], []⟩ noFaults (some ⟨none, some "A", some "a"⟩) =
      (⟨200, .user ⟨1, "A", "a", []⟩⟩, ⟨[⟨1, "A", "a"⟩], [], []⟩) ∧
    createPost ⟨[⟨1, "A", "a"⟩], [], []⟩ noFaults (some ⟨none, some "T", some "C", some 1⟩) =
      (⟨200, .post ⟨1, "T", "C", 1, []⟩⟩, ⟨[⟨1, "A", "a"⟩], [⟨1, "T", "C", 1⟩], []⟩) ∧
    createComment ⟨[⟨1, "A", "a"⟩], [⟨1, "T", "C", 1⟩], []⟩ noFaults
        (some ⟨none, some "hi", none, some 1⟩) =
      (⟨200, .comment ⟨1, "hi", 0, 1⟩⟩, sampleStore) ∧
    deleteUser sampleStore noFaults "1" =
      (⟨200, .text "User and associated data deleted successfully"⟩, ⟨[], [], []⟩) ∧
    getPost ⟨[], [], []⟩ noFaults "1" = (⟨404, .text "Post not found"⟩, ⟨[], [], []⟩) := by
  decide

/-! ## Reads -/

theorem getUser_absent (st : Store) (s : String) (id : Int) (hs : Atoi s = some id)
    (h : ∀ u ∈ st.users, (u.ID : Int) ≠ id) :
    getUser st noFaults s = (⟨404, .dbError .ErrRecordNotFound⟩, st) := by
  simp [getUser, hs, dbFirstUser, noFaults, nextFault, find_absent (fun u : UserRow => u.ID) _ _ h]

theorem getPost_absent (st : Store) (s : String) (id : Int) (hs : Atoi s = some id)
    (h : ∀ p ∈ st.posts, (p.ID : Int) ≠ id) :
    getPost st noFaults s = (⟨404, .text "Post not found"⟩, st) := by
  simp [getPost, hs, dbFirstPostPreloadComments, noFaults, nextFault,
    find_absent (fun p : PostRow => p.ID) _ _ h]

theorem getComment_absent (st : Store) (s : String) (id : Int) (hs : Atoi s = some id)
    (h : ∀ c ∈ st.comments, (c.ID : Int) ≠ id) :
    getComment st noFaults s = (⟨404, .text "Comment not found"⟩, st) := by
  simp [getComment, hs, dbFirstComment, noFaults, nextFault,
    find_absent (fun c : Comment => c.ID) _ _ h]

theorem getUser_store (st : Store) (faults : List Bool) (s : String) :
    (getUser st faults s).2 = st := by
  unfold getUser
  split
  · rfl
  · split <;> rfl

theorem getPost_store (st : Store) (faults : List Bool) (s : String) :
    (getPost st faults s).2 = st := by
  unfold getPost
  split
  · rfl
  · split <;> rfl

theorem getComment_store (st : Store) (faults : List Bool) (s : String) :
    (getComment st faults s).2 = st := by
  unfold getComment
  split
  · rfl
  · split <;> rfl

/-- C6: a fetch by an identifier that is absent from the table answers 404,
for users, posts and comments alike, and no fetch ever changes the store. -/
theorem fetch_absent_is_404 (st : Store) (s : String) (id : Int) (hs : Atoi s = some id) :
    ((∀ u ∈ st.users, (u.ID : Int) ≠ id) →
        getUser st noFaults s = (⟨404, .dbError .ErrRecordNotFound⟩, st)) ∧
    ((∀ p ∈ st.posts, (p.ID : Int) ≠ id) →
        getPost st noFaults s = (⟨404, .text "Post not found"⟩, st)) ∧
    ((∀ c ∈ st.comments, (c.ID : Int) ≠ id) →
        getComment st noFaults s = (⟨404, .text "Comment not found"⟩, st)) ∧
    (∀ faults : List Bool, (getUser st faults s).2 = st ∧ (getPost st faults s).2 = st ∧
        (getComment st faults s).2 = st) :=
  ⟨getUser_absent st s id hs, getPost_absent st s id hs, getComment_absent st s id hs,
    fun faults => ⟨getUser_store st faults s, getPost_store st faults s,
      getComment_store st faults s⟩⟩

theorem fetch_absent_is_404_witness :
    Atoi "5" = some 5 ∧
    getUser sampleStore noFaults "5" = (⟨404, .dbError .ErrRecordNotFound⟩, sampleStore) ∧
    getPost sampleStore noFaults "5" = (⟨404, .text "Post not found"⟩, sampleStore) ∧
    getComment sampleStore noFaults "5" = (⟨404, .text "Comment not found"⟩, sampleStore) :=
  have h := fetch_absent_is_404 sampleStore "5" 5 (by decide)
  ⟨by decide, h.1 (by decide), h.2.1 (by decide), h.2.2.1 (by decide)⟩

/-! ## Creation -/

/-- C1: when no user carries the identifier named by a post payload,
`createPost` answers 400 and the store is the one it was given, whatever the
fault schedule. -/
theorem createPost_missing_user (st : Store) (faults : List Bool) (j : PostJSON)
    (h : ∀ u ∈ st.users, u.ID ≠ j.userID.getD 0) :
    createPost st faults (some j) = (⟨400, .text "Invalid UserID"⟩, st) := by
  have hf : st.users.find? (fun r => decide (r.ID = j.userID.getD 0)) = none := by
    rw [List.find?_eq_none]
    intro x hx
    simpa using h x hx
  unfold createPost dbFirstUser
  cases hfault : nextFault faults
  · simp [bindPost, zeroPost, hf]
  · simp

theorem createPost_missing_user_witness :
    createPost sampleStore noFaults (some ⟨some 9, some "T", some "C", some 7⟩) =
      (⟨400, .text "Invalid UserID"⟩, sampleStore) :=
  createPost_missing_user sampleStore noFaults ⟨some 9, some "T", some "C", some 7⟩ (by decide)

/-- C4: the identifier in a create payload plays no part: the response and
the resulting store are the same whatever `id` the payload carries, and a 200
response carries the record under the identifier chosen by the storage layer,
which is non-zero and was not in the table. -/
theorem create_ignores_supplied_id (st : Store) (faults : List Bool) (ju : UserJSON)
    (jp : PostJSON) (jc : CommentJSON) (i : Option Nat) :
    (createUser st faults (some { ju with id := i }) = createUser st faults (some ju) ∧
      ((createUser st faults (some ju)).1.status = 200 →
        createUser st faults (some ju) =
          (⟨200, .user ⟨nextID (st.users.map (fun r => r.ID)), ju.name.getD "",
              ju.username.getD "", []⟩⟩,
            { st with users := st.users ++
                [⟨nextID (st.users.map (fun r => r.ID)), ju.name.getD "",
                  ju.username.getD ""⟩] }))) ∧
    (createPost st faults (some { jp with id := i }) = createPost st faults (some jp) ∧
      ((createPost st faults (some jp)).1.status = 200 →
        createPost st faults (some jp) =
          (⟨200, .post ⟨nextID (st.posts.map (fun r => r.ID)), jp.title.getD "",
              jp.content.getD "", jp.userID.getD 0, []⟩⟩,
            { st with posts := st.posts ++
                [⟨nextID (st.posts.map (fun r => r.ID)), jp.title.getD "",
                  jp.content.getD "", jp.userID.getD 0⟩] }))) ∧
    (createComment st faults (some { jc with id := i }) = createComment st faults (some jc) ∧
      ((createComment st faults (some jc)).1.status = 200 →
        createComment st faults (some jc) =
          (⟨200, .comment ⟨nextID (st.comments.map (fun r => r.ID)), jc.text.getD "",
              jc.userID.getD 0, jc.postID.getD 0⟩⟩,
            { st with comments := st.comments ++
                [⟨nextID (st.comments.map (fun r => r.ID)), jc.text.getD "",
                  jc.userID.getD 0, jc.postID.getD 0⟩] }))) ∧
    (nextID (st.users.map (fun r => r.ID)) ≠ 0 ∧
      nextID (st.users.map (fun r => r.ID)) ∉ st.users.map (fun r => r.ID)) ∧
    (nextID (st.posts.map (fun r => r.ID)) ≠ 0 ∧
      nextID (st.posts.map (fun r => r.ID)) ∉ st.posts.map (fun r => r.ID)) ∧
    (nextID (st.comments.map (fun r => r.ID)) ≠ 0 ∧
      nextID (st.comments.map (fun r => r.ID)) ∉ st.comments.map (fun r => r.ID)) := by
  refine ⟨⟨?_, ?_⟩, ⟨?_, ?_⟩, ⟨?_, ?_⟩, nextID_fresh _, nextID_fresh _, nextID_fresh _⟩
  · simp [createUser, bindUser, zeroUser]
  · unfold createUser dbCreateUser
    cases hfault : nextFault faults <;> simp [bindUser, zeroUser, User.toRow]
  · simp [createPost, bindPost, zeroPost]
  · unfold createPost dbFirstUser dbCreatePost
    cases hfault : nextFault faults
    · cases hfind : st.users.find? (fun r => decide (r.ID = jp.userID.getD 0))
      · simp [hfind, bindPost, zeroPost]
      · cases hfault2 : nextFault faults.tail <;>
          simp [hfind, bindPost, zeroPost, Post.toRow]
    · simp
  · simp [createComment, bindComment, zeroComment]
  · unfold createComment dbCreateComment
    cases hfault : nextFault faults <;> simp [bindComment, zeroComment]

theorem create_ignores_supplied_id_witness :
    createUser sampleStore noFaults (some ⟨some 42, some "B", some "b"⟩) =
      (⟨200, .user ⟨2, "B", "b", []⟩⟩,
        { sampleStore with users := sampleStore.users ++ [⟨2, "B", "b"⟩] }) ∧
    createPost sampleStore noFaults (some ⟨some 42, some "T2", some "C2", some 1⟩) =
      (⟨200, .post ⟨2, "T2", "C2", 1, []⟩⟩,
        { sampleStore with posts := sampleStore.posts ++ [⟨2, "T2", "C2", 1⟩] }) ∧
    createComment sampleStore noFaults (some ⟨some 42, some "yo", some 1, some 1⟩) =
      (⟨200, .comment ⟨2, "yo", 1, 1⟩⟩,
        { sampleStore with comments := sampleStore.comments ++ [⟨2, "yo", 1, 1⟩] }) :=
  have h := create_ignores_supplied_id sampleStore noFaults ⟨some 42, some "B", some "b"⟩
    ⟨some 42, some "T2", some "C2", some 1⟩ ⟨some 42, some "yo", some 1, some 1⟩ none
  ⟨h.1.2 (by decide), h.2.1.2 (by decide), h.2.2.1.2 (by decide)⟩

/-! ## The error mapping -/

/-- C7: the failing input. With user 1 in the store and a post payload that
names user 1, a user lookup that fails with an infrastructure error makes
`createPost` answer 400 with the store untouched, where `getUser` under the
same fault answers 500 and the same request without the fault answers 200. -/
theorem createPost_lookup_fault_is_400 :
    createPost sampleStore [true] (some ⟨none, some "T", some "C", some 1⟩) =
      (⟨400, .text "Invalid UserID"⟩, sampleStore) ∧
    (getUser sampleStore [true] "1").1.status = 500 ∧
    (createPost sampleStore noFaults (some ⟨none, some "T", some "C", some 1⟩)).1.status
      = 200 := by
  decide

/-! ## Deleting a user is not atomic -/

/-- C9: there is a well-formed store and a fault schedule (the load, two
comment deletions and one post deletion succeed, the next post deletion
fails) under which `deleteUser` answers 500 and leaves a store that differs
from the initial one: the comments and the post already deleted stay deleted,
the user and the post not yet reached are still stored. -/
theorem deleteUser_not_atomic :
    ∃ st : Store, ∃ faults : List Bool, ∃ idParam : String,
      st.WF ∧
      (deleteUser st faults idParam).1.status = 500 ∧
      (deleteUser st faults idParam).2 ≠ st ∧
      (∃ c ∈ st.comments, c ∉ (deleteUser st faults idParam).2.comments) ∧
      (∃ p ∈ st.posts, p ∉ (deleteUser st faults idParam).2.posts) ∧
      (∃ p ∈ st.posts, p ∈ (deleteUser st faults idParam).2.posts) ∧
      (deleteUser st faults idParam).2.users = st.users ∧
      deleteUser st faults idParam =
        (⟨500, .dbError .infrastructure⟩,
          { users := [⟨1, "A", "a"⟩], posts := [⟨2, "U", "D", 1⟩], comments := [] }) := by
  refine ⟨twoPostStore, [false, false, false, false, true], "1", ?_, ?_, ?_, ?_, ?_, ?_,
    ?_, ?_⟩
  · unfold Store.WF
    decide
  all_goals decide

/-! ## Upserts and deletions on a table -/

theorem upsertBy_mem {α : Type} (key : α → Nat) (row : α) (table : List α) :
    row ∈ upsertBy key row table := by
  unfold upsertBy
  split_ifs with h
  · rw [List.any_eq_true] at h
    obtain ⟨x, hx, hk⟩ := h
    rw [List.mem_map]
    exact ⟨x, hx, by simp [of_decide_eq_true hk]⟩
  · simp

theorem upsertBy_unique {α : Type} (key : α → Nat) (row : α) (table : List α) (x : α)
    (hx : x ∈ upsertBy key row table) (hk : key x = key row) : x = row := by
  unfold upsertBy at hx
  split_ifs at hx with h
  · rw [List.mem_map] at hx
    obtain ⟨y, _, hyx⟩ := hx
    by_cases hy : key y = key row
    · simp [hy] at hyx
      exact hyx.symm
    · simp [hy] at hyx
      subst hyx
      exact absurd hk hy
  · rw [List.mem_append] at hx
    rcases hx with hx | hx
    · exfalso
      apply h
      rw [List.any_eq_true]
      exact ⟨x, hx, by simp [hk]⟩
    · simpa using hx

theorem upsertBy_others {α : Type} (key : α → Nat) (row : α) (table : List α) (x : α)
    (hk : key x ≠ key row) : x ∈ upsertBy key row table ↔ x ∈ table := by
  unfold upsertBy
  split_ifs with h
  · rw [List.mem_map]
    constructor
    · rintro ⟨y, hy, hyx⟩
      by_cases hyk : key y = key row
      · simp [hyk] at hyx
        subst hyx
        exact absurd rfl hk
      · simp [hyk] at hyx
        subst hyx
        exact hy
    · intro hx
      exact ⟨x, hx, by simp [hk]⟩
  · rw [List.mem_append]
    constructor
    · rintro (hx | hx)
      · exact hx
      · have : x = row := by simpa using hx
        subst this
        exact absurd rfl hk
    · intro hx
      exact Or.inl hx

theorem eq_of_mem_of_key {α : Type} (key : α → Nat) (l : List α) (hnd : (l.map key).Nodup)
    (x y : α) (hx : x ∈ l) (hy : y ∈ l) (hk : key x = key y) : x = y :=
  List.inj_on_of_nodup_map hnd hx hy hk

theorem dbFirstPost_present (st : Store) (p : PostRow) (hp : p ∈ st.posts)
    (hnd : (st.posts.map (fun r => r.ID)).Nodup) :
    dbFirstPost st false (p.ID : Int) = .ok (p.toPost []) := by
  unfold dbFirstPost
  rw [find_present (fun r : PostRow => r.ID) st.posts p hp hnd]
  rfl

theorem dbFirstComment_present (st : Store) (c : Comment) (hc : c ∈ st.comments)
    (hnd : (st.comments.map (fun r => r.ID)).Nodup) :
    dbFirstComment st false (c.ID : Int) = .ok c := by
  unfold dbFirstComment
  rw [find_present (fun r : Comment => r.ID) st.comments c hc hnd]
  rfl

theorem dbFirstPost_absent (st : Store) (id : Int) (h : ∀ p ∈ st.posts, (p.ID : Int) ≠ id) :
    dbFirstPost st false id = .error .ErrRecordNotFound := by
  unfold dbFirstPost
  rw [find_absent (fun r : PostRow => r.ID) st.posts id h]
  rfl

/-! ## Deleting a post -/

/-- C3: a `deletePost` that answers 200 removes the rows of the posts table
under the post's identifier and nothing else: the users and the comments
tables are as before, and fetching a comment of the deleted post afterwards
answers 200 with that comment. -/
theorem deletePost_keeps_comments (st : Store) (faults : List Bool) (s sc : String)
    (p : PostRow) (c : Comment) (hwf : st.WF) (hs : Atoi s = some (p.ID : Int))
    (hp : p ∈ st.posts) (hc : c ∈ st.comments) (_hcp : c.PostID = p.ID)
    (hsc : Atoi sc = some (c.ID : Int)) (hok : (deletePost st faults s).1.status = 200) :
    deletePost st faults s =
      (⟨200, .text "Post deleted successfully"⟩,
        { st with posts := st.posts.filter (fun r => decide (r.ID ≠ p.ID)) }) ∧
    (deletePost st faults s).2.comments = st.comments ∧
    (∀ x, x ∈ (deletePost st faults s).2.posts ↔ x ∈ st.posts ∧ x ≠ p) ∧
    getComment (deletePost st faults s).2 noFaults sc =
      (⟨200, .comment c⟩, (deletePost st faults s).2) := by
  have hres : deletePost st faults s =
      (⟨200, .text "Post deleted successfully"⟩,
        { st with posts := st.posts.filter (fun r => decide (r.ID ≠ p.ID)) }) := by
    unfold deletePost at hok ⊢
    rw [hs] at hok ⊢
    simp only [] at hok ⊢
    cases hf1 : nextFault faults
    · rw [hf1] at hok
      rw [dbFirstPost_present st p hp hwf.2.1.2] at hok ⊢
      simp only [] at hok ⊢
      unfold dbDeletePost at hok ⊢
      cases hf2 : nextFault faults.tail
      · rw [hf2] at hok
        by_cases h0 : p.ID = 0
        · simp [PostRow.toPost, h0] at hok
        · simp [PostRow.toPost, h0]
      · rw [hf2] at hok
        simp at hok
    · rw [hf1] at hok
      simp [dbFirstPost] at hok
  refine ⟨hres, ?_, ?_, ?_⟩
  · rw [hres]
  · intro x
    rw [hres]
    simp only [List.mem_filter, decide_eq_true_eq]
    constructor
    · rintro ⟨hx, hne⟩
      exact ⟨hx, fun he => hne (by rw [he])⟩
    · rintro ⟨hx, hne⟩
      exact ⟨hx, fun he => hne (eq_of_mem_of_key (fun r : PostRow => r.ID) st.posts
        hwf.2.1.2 x p hx hp he)⟩
  · rw [hres]
    unfold getComment
    rw [hsc]
    simp only [noFaults, nextFault, List.headD_nil]
    rw [dbFirstComment_present
      { st with posts := st.posts.filter (fun r => decide (r.ID ≠ p.ID)) } c hc hwf.2.2.2]

theorem deletePost_keeps_comments_witness :
    deletePost sampleStore noFaults "1" =
      (⟨200, .text "Post deleted successfully"⟩,
        { sampleStore with posts := [] }) ∧
    getComment (deletePost sampleStore noFaults "1").2 noFaults "1" =
      (⟨200, .comment ⟨1, "hi", 0, 1⟩⟩, (deletePost sampleStore noFaults "1").2) :=
  have h := deletePost_keeps_comments sampleStore noFaults "1" "1" ⟨1, "T", "C", 1⟩
    ⟨1, "hi", 0, 1⟩ (by unfold Store.WF; decide) (by decide) (by decide) (by decide)
    (by decide) (by decide) (by decide)
  ⟨h.1, h.2.2.2⟩

/-! ## Updating a comment -/

theorem updateComment_compute (st : Store) (s : String) (n : Int) (j : CommentJSON)
    (hs : Atoi s = some n) (hpos : 0 < n) :
    updateComment st noFaults s (some j) =
      (⟨200, .comment ⟨n.toNat, j.text.getD "", j.userID.getD 0, j.postID.getD 0⟩⟩,
        { st with comments := (upsertBy (fun r => r.ID)
            ⟨n.toNat, j.text.getD "", j.userID.getD 0, j.postID.getD 0⟩ st.comments) }) := by
  have hu := toUint_of_pos s n hs hpos
  have hne : n.toNat ≠ 0 := by omega
  unfold updateComment
  rw [hs]
  simp [noFaults, nextFault, dbSaveComment, bindComment, zeroComment, hu, hne]

/-- C5, as amended: for a path identifier that parses as a positive integer
and a comment payload that parses, with the storage call not failing,
`updateComment` answers 200 with the payload under the path identifier (the
identifier in the body plays no part), whether or not a comment was stored
under it: afterwards exactly one stored comment carries that identifier, it
holds the payload's fields, and every other row of the store is as before. -/
theorem updateComment_upsert (st : Store) (s : String) (n : Int) (j : CommentJSON)
    (i : Option Nat) (hs : Atoi s = some n) (hpos : 0 < n) :
    (updateComment st noFaults s (some j)).1 =
      ⟨200, .comment ⟨n.toNat, j.text.getD "", j.userID.getD 0, j.postID.getD 0⟩⟩ ∧
    ((n.toNat : Nat) : Int) = n ∧
    updateComment st noFaults s (some { j with id := i }) =
      updateComment st noFaults s (some j) ∧
    (⟨n.toNat, j.text.getD "", j.userID.getD 0, j.postID.getD 0⟩ : Comment) ∈
      (updateComment st noFaults s (some j)).2.comments ∧
    (∀ x ∈ (updateComment st noFaults s (some j)).2.comments, x.ID = n.toNat →
      x = ⟨n.toNat, j.text.getD "", j.userID.getD 0, j.postID.getD 0⟩) ∧
    (∀ x : Comment, x.ID ≠ n.toNat →
      (x ∈ (updateComment st noFaults s (some j)).2.comments ↔ x ∈ st.comments)) ∧
    (updateComment st noFaults s (some j)).2.users = st.users ∧
    (updateComment st noFaults s (some j)).2.posts = st.posts := by
  have h := updateComment_compute st s n j hs hpos
  have h2 := updateComment_compute st s n { j with id := i } hs hpos
  refine ⟨by rw [h], by omega, by rw [h, h2], ?_, ?_, ?_, by rw [h], by rw [h]⟩
  · rw [h]
    exact upsertBy_mem (fun r : Comment => r.ID) _ _
  · intro x hx hk
    rw [h] at hx
    exact upsertBy_unique (fun r : Comment => r.ID) _ _ x hx hk
  · intro x hk
    rw [h]
    exact upsertBy_others (fun r : Comment => r.ID) _ _ x hk

theorem updateComment_upsert_witness :
    (updateComment sampleStore noFaults "7" (some ⟨some 3, some "x", none, some 1⟩)).1 =
      ⟨200, .comment ⟨7, "x", 0, 1⟩⟩ ∧
    (⟨7, "x", 0, 1⟩ : Comment) ∈
      (updateComment sampleStore noFaults "7"
        (some ⟨some 3, some "x", none, some 1⟩)).2.comments :=
  have h := updateComment_upsert sampleStore "7" 7 ⟨some 3, some "x", none, some 1⟩ none
    (by decide) (by decide)
  ⟨h.1, h.2.2.2.1⟩

/-- C5, the claim as stated fails: path identifier 0 parses, the call answers
200, and the payload is stored under a fresh identifier while no comment is
stored under 0; path identifier -1 parses, and the payload is stored under
2^64 - 1 while no stored comment carries -1. -/
theorem updateComment_path_id_counterexample :
    Atoi "0" = some 0 ∧
    (updateComment sampleStore noFaults "0" (some ⟨none, some "x", none, some 1⟩)).1 =
      ⟨200, .comment ⟨2, "x", 0, 1⟩⟩ ∧
    (∀ c ∈ (updateComment sampleStore noFaults "0"
        (some ⟨none, some "x", none, some 1⟩)).2.comments, (c.ID : Int) ≠ 0) ∧
    Atoi "-1" = some (-1) ∧
    (updateComment sampleStore noFaults "-1" (some ⟨none, some "x", none, some 1⟩)).1 =
      ⟨200, .comment ⟨18446744073709551615, "x", 0, 1⟩⟩ ∧
    (∀ c ∈ (updateComment sampleStore noFaults "-1"
        (some ⟨none, some "x", none, some 1⟩)).2.comments, (c.ID : Int) ≠ -1) := by
  decide

/-! ## Updating a post -/

theorem updatePost_compute (st : Store) (s : String) (row : PostRow) (j : PostJSON)
    (hwf : st.WF) (hs : Atoi s = some (row.ID : Int)) (hrow : row ∈ st.posts)
    (hne : j.id ≠ some 0) :
    updatePost st noFaults s (some j) =
      (⟨200, .post ⟨j.id.getD row.ID, j.title.getD row.Title, j.content.getD row.Content,
          j.userID.getD row.UserID, []⟩⟩,
        { st with posts := (upsertBy (fun r => r.ID)
            ⟨j.id.getD row.ID, j.title.getD row.Title, j.content.getD row.Content,
              j.userID.getD row.UserID⟩ st.posts) }) := by
  have hid : j.id.getD row.ID ≠ 0 := by
    cases hj : j.id with
    | none => simpa using hwf.2.1.1 row hrow
    | some q =>
      intro h0
      apply hne
      rw [hj]
      simpa using h0
  unfold updatePost
  rw [hs]
  simp only [noFaults, nextFault, List.headD_nil, List.tail_nil]
  rw [dbFirstPost_present st row hrow hwf.2.1.2]
  simp [dbSavePost, bindPost, PostRow.toPost, Post.toRow, hid]

theorem updatePost_compute_zero (st : Store) (s : String) (row : PostRow) (j : PostJSON)
    (hwf : st.WF) (hs : Atoi s = some (row.ID : Int)) (hrow : row ∈ st.posts)
    (h0 : j.id = some 0) :
    updatePost st noFaults s (some j) =
      (⟨200, .post ⟨nextID (st.posts.map (fun r => r.ID)), j.title.getD row.Title,
          j.content.getD row.Content, j.userID.getD row.UserID, []⟩⟩,
        { st with posts := st.posts ++
            [⟨nextID (st.posts.map (fun r => r.ID)), j.title.getD row.Title,
              j.content.getD row.Content, j.userID.getD row.UserID⟩] }) := by
  unfold updatePost
  rw [hs]
  simp only [noFaults, nextFault, List.headD_nil, List.tail_nil]
  rw [dbFirstPost_present st row hrow hwf.2.1.2]
  simp [dbSavePost, bindPost, PostRow.toPost, Post.toRow, h0]

theorem updatePost_absent (st : Store) (s : String) (id : Int) (body : Option PostJSON)
    (hs : Atoi s = some id) (h : ∀ p ∈ st.posts, (p.ID : Int) ≠ id) :
    updatePost st noFaults s body = (⟨404, .text "Post not found"⟩, st) := by
  unfold updatePost
  rw [hs]
  simp only [noFaults, nextFault, List.headD_nil]
  rw [dbFirstPost_absent st id h]

/-- C8, as amended: with the storage calls not failing, `updatePost` on a
path identifier under which no post is stored answers 404 and leaves the
store as it was, whatever the body; when the post is stored and the body
parses, carries no `comments` array and does not carry `id` 0, the record
saved and returned with 200 is the loaded post with every key that carries a
value replaced by that value and every key that is absent or `null` keeping
its prior value. -/
theorem updatePost_merge (st : Store) (s : String) (id : Int) (hwf : st.WF)
    (hs : Atoi s = some id) :
    ((∀ p ∈ st.posts, (p.ID : Int) ≠ id) →
      ∀ body, updatePost st noFaults s body = (⟨404, .text "Post not found"⟩, st)) ∧
    (∀ row ∈ st.posts, (row.ID : Int) = id → ∀ b : PostBody, b.id ≠ .value 0 →
      ∃ p : Post,
        (updatePost st noFaults s (some b.decode)).1 = ⟨200, .post p⟩ ∧
        p.toRow ∈ (updatePost st noFaults s (some b.decode)).2.posts ∧
        (∀ x ∈ (updatePost st noFaults s (some b.decode)).2.posts, x.ID = p.ID →
          x = p.toRow) ∧
        ((∀ a, b.id = .value a → p.ID = a) ∧ (b.id = .absent → p.ID = row.ID) ∧
          (b.id = .null → p.ID = row.ID)) ∧
        ((∀ a, b.title = .value a → p.Title = a) ∧ (b.title = .absent → p.Title = row.Title) ∧
          (b.title = .null → p.Title = row.Title)) ∧
        ((∀ a, b.content = .value a → p.Content = a) ∧
          (b.content = .absent → p.Content = row.Content) ∧
          (b.content = .null → p.Content = row.Content)) ∧
        ((∀ a, b.userID = .value a → p.UserID = a) ∧
          (b.userID = .absent → p.UserID = row.UserID) ∧
          (b.userID = .null → p.UserID = row.UserID)) ∧
        p.Comments = []) := by
  refine ⟨fun h body => updatePost_absent st s id body hs h, ?_⟩
  intro row hrow hid b hb0
  subst hid
  have hne : b.decode.id ≠ some 0 := by
    intro h0
    apply hb0
    cases hb : b.id with
    | absent => simp [PostBody.decode, JSONKey.decode, hb] at h0
    | null => simp [PostBody.decode, JSONKey.decode, hb] at h0
    | value a =>
      simp [PostBody.decode, JSONKey.decode, hb] at h0
      rw [h0]
  have h := updatePost_compute st s row b.decode hwf hs hrow hne
  refine ⟨⟨b.decode.id.getD row.ID, b.decode.title.getD row.Title,
    b.decode.content.getD row.Content, b.decode.userID.getD row.UserID, []⟩,
    by rw [h], ?_, ?_, ?_, ?_, ?_, ?_, rfl⟩
  · rw [h]
    exact upsertBy_mem (fun r : PostRow => r.ID) _ _
  · intro x hx hk
    rw [h] at hx
    exact upsertBy_unique (fun r : PostRow => r.ID) _ _ x hx hk
  · refine ⟨fun a ha => ?_, fun ha => ?_, fun ha => ?_⟩ <;>
      simp [PostBody.decode, JSONKey.decode, ha]
  · refine ⟨fun a ha => ?_, fun ha => ?_, fun ha => ?_⟩ <;>
      simp [PostBody.decode, JSONKey.decode, ha]
  · refine ⟨fun a ha => ?_, fun ha => ?_, fun ha => ?_⟩ <;>
      simp [PostBody.decode, JSONKey.decode, ha]
  · refine ⟨fun a ha => ?_, fun ha => ?_, fun ha => ?_⟩ <;>
      simp [PostBody.decode, JSONKey.decode, ha]

theorem updatePost_merge_witness :
    updatePost sampleStore noFaults "5" none = (⟨404, .text "Post not found"⟩, sampleStore) ∧
    ∃ p : Post,
      (updatePost sampleStore noFaults "1"
        (some (PostBody.decode ⟨.absent, .null, .value "C9", .absent⟩))).1 =
          ⟨200, .post p⟩ ∧
      p.ID = 1 ∧ p.Title = "T" ∧ p.Content = "C9" ∧ p.UserID = 1 :=
  ⟨(updatePost_merge sampleStore "5" 5 (by unfold Store.WF; decide) (by decide)).1
      (by decide) none,
    match (updatePost_merge sampleStore "1" 1 (by unfold Store.WF; decide) (by decide)).2
      ⟨1, "T", "C", 1⟩ (by decide) (by decide) ⟨.absent, .null, .value "C9", .absent⟩
      (by decide) with
    | ⟨p, h1, _, _, hid, ht, hc, hu, _⟩ =>
      ⟨p, h1, hid.2.1 rfl, ht.2.2 rfl, hc.1 "C9" rfl, hu.2.1 rfl⟩⟩

/-- C8, the claim as stated fails, post 1 being stored with title "T":
a body that carries `id` 0 and a title is answered 200 with identifier 2, not
the body's 0, the record being saved as a second row next to the untouched
post 1; and a body whose `title` key is present with `null` is answered 200
with the title still "T", the key having no effect on the field. -/
theorem updatePost_merge_counterexample :
    updatePost sampleStore noFaults "1"
        (some (PostBody.decode ⟨.value 0, .value "x", .absent, .absent⟩)) =
      (⟨200, .post ⟨2, "x", "C", 1, []⟩⟩,
        { sampleStore with posts := [⟨1, "T", "C", 1⟩, ⟨2, "x", "C", 1⟩] }) ∧
    (updatePost sampleStore noFaults "1"
        (some (PostBody.decode ⟨.value 0, .value "x", .absent, .absent⟩))).1 ≠
      ⟨200, .post ⟨0, "x", "C", 1, []⟩⟩ ∧
    (⟨.absent, .null, .value "C9", .absent⟩ : PostBody).title ≠ .absent ∧
    updatePost sampleStore noFaults "1"
        (some (PostBody.decode ⟨.absent, .null, .value "C9", .absent⟩)) =
      (⟨200, .post ⟨1, "T", "C9", 1, []⟩⟩,
        { sampleStore with posts := [⟨1, "T", "C9", 1⟩] }) := by
  decide

/-- C10: with post `row` stored under the path identifier and a body that
carries a non-zero `id` q other than the path identifier, `updatePost`
answers 200 with a record under q, the row saved is stored under q and is the
only one there, the post under the path identifier is stored unchanged, and
so is every row under an identifier other than q. -/
theorem updatePost_body_id_wins (st : Store) (s : String) (row : PostRow) (j : PostJSON)
    (q : Nat) (hwf : st.WF) (hs : Atoi s = some (row.ID : Int)) (hrow : row ∈ st.posts)
    (hj : j.id = some q) (hq0 : q ≠ 0) (hqp : q ≠ row.ID) :
    (updatePost st noFaults s (some j)).1 =
      ⟨200, .post ⟨q, j.title.getD row.Title, j.content.getD row.Content,
        j.userID.getD row.UserID, []⟩⟩ ∧
    (⟨q, j.title.getD row.Title, j.content.getD row.Content, j.userID.getD row.UserID⟩ :
      PostRow) ∈ (updatePost st noFaults s (some j)).2.posts ∧
    (∀ x ∈ (updatePost st noFaults s (some j)).2.posts, x.ID = q →
      x = ⟨q, j.title.getD row.Title, j.content.getD row.Content, j.userID.getD row.UserID⟩) ∧
    row ∈ (updatePost st noFaults s (some j)).2.posts ∧
    (∀ x ∈ (updatePost st noFaults s (some j)).2.posts, x.ID = row.ID → x = row) ∧
    (∀ x : PostRow, x.ID ≠ q →
      (x ∈ (updatePost st noFaults s (some j)).2.posts ↔ x ∈ st.posts)) ∧
    (updatePost st noFaults s (some j)).2.users = st.users ∧
    (updatePost st noFaults s (some j)).2.comments = st.comments := by
  have hne : j.id ≠ some 0 := by
    rw [hj]
    intro h
    exact hq0 (Option.some.inj h)
  have h := updatePost_compute st s row j hwf hs hrow hne
  rw [hj] at h
  simp only [Option.getD_some] at h
  have hothers : ∀ x : PostRow, x.ID ≠ q →
      (x ∈ (updatePost st noFaults s (some j)).2.posts ↔ x ∈ st.posts) := by
    intro x hk
    rw [h]
    exact upsertBy_others (fun r : PostRow => r.ID) _ _ x hk
  refine ⟨by rw [h], ?_, ?_, ?_, ?_, hothers, by rw [h], by rw [h]⟩
  · rw [h]
    exact upsertBy_mem (fun r : PostRow => r.ID) _ _
  · intro x hx hk
    rw [h] at hx
    exact upsertBy_unique (fun r : PostRow => r.ID) _ _ x hx hk
  · exact (hothers row (fun he => hqp he.symm)).2 hrow
  · intro x hx hk
    have hxq : x.ID ≠ q := fun he => hqp (by rw [← he, hk])
    exact eq_of_mem_of_key (fun r : PostRow => r.ID) st.posts hwf.2.1.2 x row
      ((hothers x hxq).1 hx) hrow hk

theorem updatePost_body_id_wins_witness :
    (updatePost sampleStore noFaults "1" (some ⟨some 7, some "x", none, none⟩)).1 =
      ⟨200, .post ⟨7, "x", "C", 1, []⟩⟩ ∧
    (⟨7, "x", "C", 1⟩ : PostRow) ∈
      (updatePost sampleStore noFaults "1" (some ⟨some 7, some "x", none, none⟩)).2.posts ∧
    (⟨1, "T", "C", 1⟩ : PostRow) ∈
      (updatePost sampleStore noFaults "1" (some ⟨some 7, some "x", none, none⟩)).2.posts :=
  have h := updatePost_body_id_wins sampleStore "1" ⟨1, "T", "C", 1⟩
    ⟨some 7, some "x", none, none⟩ 7 (by unfold Store.WF; decide) (by decide) (by decide)
    rfl (by decide) (by decide)
  ⟨h.1, h.2.1, h.2.2.2.1⟩

/-! ## Deleting a user -/

theorem deleteCommentsLoop_noFaults (cs : List Comment) (st : Store)
    (h : ∀ c ∈ cs, c.ID ≠ 0) :
    deleteCommentsLoop cs st [] =
      (none, { st with comments :=
        st.comments.filter (fun r => decide (∀ c ∈ cs, r.ID ≠ c.ID)) }, []) := by
  induction cs generalizing st with
  | nil => simp [deleteCommentsLoop]
  | cons c rest ih =>
    have hc : c.ID ≠ 0 := h c (List.mem_cons_self c rest)
    have hrest : ∀ x ∈ rest, x.ID ≠ 0 := fun x hx => h x (List.mem_cons_of_mem c hx)
    unfold deleteCommentsLoop
    simp only [nextFault, List.headD_nil, dbDeleteComment, hc, List.tail_nil]
    simp only [Bool.false_eq_true, if_false]
    rw [ih _ hrest]
    simp only [List.filter_filter, List.forall_mem_cons]
    congr 3
    apply List.filter_congr
    intro x _
    simp [Bool.and_comm]

theorem deleteAllCommentsLoop_noFaults (ps : List Post) (st : Store)
    (h : ∀ p ∈ ps, ∀ c ∈ p.Comments, c.ID ≠ 0) :
    deleteAllCommentsLoop ps st [] =
      (none, { st with comments :=
        st.comments.filter (fun r => decide (∀ p ∈ ps, ∀ c ∈ p.Comments, r.ID ≠ c.ID)) },
        []) := by
  induction ps generalizing st with
  | nil => simp [deleteAllCommentsLoop]
  | cons p rest ih =>
    have hp := h p (List.mem_cons_self p rest)
    have hrest : ∀ x ∈ rest, ∀ c ∈ x.Comments, c.ID ≠ 0 :=
      fun x hx => h x (List.mem_cons_of_mem p hx)
    unfold deleteAllCommentsLoop
    rw [deleteCommentsLoop_noFaults p.Comments st hp]
    simp only []
    rw [ih _ hrest]
    simp only [List.filter_filter, List.forall_mem_cons]
    congr 3
    apply List.filter_congr
    intro x _
    simp [Bool.and_comm]

theorem deletePostsLoop_noFaults (ps : List Post) (st : Store) (h : ∀ p ∈ ps, p.ID ≠ 0) :
    deletePostsLoop ps st [] =
      (none, { st with posts :=
        st.posts.filter (fun r => decide (∀ p ∈ ps, r.ID ≠ p.ID)) }, []) := by
  induction ps generalizing st with
  | nil => simp [deletePostsLoop]
  | cons p rest ih =>
    have hp : p.ID ≠ 0 := h p (List.mem_cons_self p rest)
    have hrest : ∀ x ∈ rest, x.ID ≠ 0 := fun x hx => h x (List.mem_cons_of_mem p hx)
    unfold deletePostsLoop
    simp only [nextFault, List.headD_nil, dbDeletePost, hp, List.tail_nil]
    simp only [Bool.false_eq_true, if_false]
    rw [ih _ hrest]
    simp only [List.filter_filter, List.forall_mem_cons]
    congr 3
    apply List.filter_congr
    intro x _
    simp [Bool.and_comm]

theorem mem_postsWithCommentsOf (st : Store) (userID : Nat) (p : Post) :
    p ∈ postsWithCommentsOf st userID ↔
      ∃ r ∈ st.posts, r.UserID = userID ∧ p = r.toPost (commentsOf st r.ID) := by
  unfold postsWithCommentsOf
  simp only [List.mem_map, List.mem_filter, decide_eq_true_eq]
  constructor
  · rintro ⟨r, ⟨hr, hu⟩, rfl⟩
    exact ⟨r, hr, hu, rfl⟩
  · rintro ⟨r, hr, hu, rfl⟩
    exact ⟨r, ⟨hr, hu⟩, rfl⟩

theorem mem_commentsOf (st : Store) (postID : Nat) (c : Comment) :
    c ∈ commentsOf st postID ↔ c ∈ st.comments ∧ c.PostID = postID := by
  unfold commentsOf
  simp

theorem dbFirstUserPreloadPostsComments_present (st : Store) (u : UserRow)
    (hu : u ∈ st.users) (hnd : (st.users.map (fun r => r.ID)).Nodup) :
    dbFirstUserPreloadPostsComments st false (u.ID : Int) =
      .ok (u.toUser (postsWithCommentsOf st u.ID)) := by
  unfold dbFirstUserPreloadPostsComments
  rw [find_present (fun r : UserRow => r.ID) st.users u hu hnd]
  rfl

theorem deleteUser_compute (st : Store) (s : String) (u : UserRow) (hwf : st.WF)
    (hs : Atoi s = some (u.ID : Int)) (hu : u ∈ st.users) :
    deleteUser st noFaults s =
      (⟨200, .text "User and associated data deleted successfully"⟩,
        { users := st.users.filter (fun r => decide (r.ID ≠ u.ID))
          posts := st.posts.filter
            (fun r => decide (∀ p ∈ postsWithCommentsOf st u.ID, r.ID ≠ p.ID))
          comments := st.comments.filter
            (fun r => decide (∀ p ∈ postsWithCommentsOf st u.ID, ∀ c ∈ p.Comments,
              r.ID ≠ c.ID)) }) := by
  have hu0 : u.ID ≠ 0 := hwf.1.1 u hu
  have hposts : ∀ p ∈ postsWithCommentsOf st u.ID, p.ID ≠ 0 := by
    intro p hp
    obtain ⟨r, hr, _, rfl⟩ := (mem_postsWithCommentsOf st u.ID p).1 hp
    exact hwf.2.1.1 r hr
  have hcomments : ∀ p ∈ postsWithCommentsOf st u.ID, ∀ c ∈ p.Comments, c.ID ≠ 0 := by
    intro p hp c hc
    obtain ⟨r, _, _, rfl⟩ := (mem_postsWithCommentsOf st u.ID p).1 hp
    exact hwf.2.2.1 c ((mem_commentsOf st r.ID c).1 hc).1
  unfold deleteUser
  rw [hs]
  simp only [noFaults, nextFault, List.headD_nil, List.tail_nil]
  rw [dbFirstUserPreloadPostsComments_present st u hu hwf.1.2]
  simp only [UserRow.toUser]
  rw [deleteAllCommentsLoop_noFaults _ st hcomments]
  simp only []
  rw [deletePostsLoop_noFaults _ _ hposts]
  simp [dbDeleteUser, nextFault, hu0]

theorem deleteUser_users (st : Store) (s : String) (u : UserRow) (hwf : st.WF)
    (hs : Atoi s = some (u.ID : Int)) (hu : u ∈ st.users) (x : UserRow) :
    x ∈ (deleteUser st noFaults s).2.users ↔ x ∈ st.users ∧ x.ID ≠ u.ID := by
  rw [deleteUser_compute st s u hwf hs hu]
  simp

theorem deleteUser_posts (st : Store) (s : String) (u : UserRow) (hwf : st.WF)
    (hs : Atoi s = some (u.ID : Int)) (hu : u ∈ st.users) (x : PostRow) :
    x ∈ (deleteUser st noFaults s).2.posts ↔
      x ∈ st.posts ∧ ∀ p ∈ st.posts, p.UserID = u.ID → x.ID ≠ p.ID := by
  rw [deleteUser_compute st s u hwf hs hu]
  simp only [List.mem_filter, decide_eq_true_eq]
  constructor
  · rintro ⟨hx, hall⟩
    refine ⟨hx, fun p hp hpu => ?_⟩
    exact hall (p.toPost (commentsOf st p.ID))
      ((mem_postsWithCommentsOf st u.ID _).2 ⟨p, hp, hpu, rfl⟩)
  · rintro ⟨hx, hall⟩
    refine ⟨hx, fun p hp => ?_⟩
    obtain ⟨r, hr, hru, rfl⟩ := (mem_postsWithCommentsOf st u.ID p).1 hp
    exact hall r hr hru

theorem deleteUser_comments (st : Store) (s : String) (u : UserRow) (hwf : st.WF)
    (hs : Atoi s = some (u.ID : Int)) (hu : u ∈ st.users) (x : Comment) :
    x ∈ (deleteUser st noFaults s).2.comments ↔
      x ∈ st.comments ∧ ∀ p ∈ st.posts, p.UserID = u.ID →
        ∀ c ∈ st.comments, c.PostID = p.ID → x.ID ≠ c.ID := by
  rw [deleteUser_compute st s u hwf hs hu]
  simp only [List.mem_filter, decide_eq_true_eq]
  constructor
  · rintro ⟨hx, hall⟩
    refine ⟨hx, fun p hp hpu c hc hcp => ?_⟩
    exact hall (p.toPost (commentsOf st p.ID))
      ((mem_postsWithCommentsOf st u.ID _).2 ⟨p, hp, hpu, rfl⟩) c
      ((mem_commentsOf st p.ID c).2 ⟨hc, hcp⟩)
  · rintro ⟨hx, hall⟩
    refine ⟨hx, fun p hp c hc => ?_⟩
    obtain ⟨r, hr, hru, rfl⟩ := (mem_postsWithCommentsOf st u.ID p).1 hp
    have hc2 := (mem_commentsOf st r.ID c).1 hc
    exact hall r hr hru c hc2.1 hc2.2

/-- C2: on a well-formed store that holds user `u`, with no storage call
failing, `deleteUser` answers 200 and leaves a store without `u`, without
any post owned by `u` and without any comment of such a post, every other
row being kept; afterwards `getUser`, `getPost` and `getComment` on each of
those identifiers answer 404. -/
theorem deleteUser_cascade (st : Store) (s : String) (u : UserRow) (hwf : st.WF)
    (hs : Atoi s = some (u.ID : Int)) (hu : u ∈ st.users) :
    (deleteUser st noFaults s).1 =
      ⟨200, .text "User and associated data deleted successfully"⟩ ∧
    (∀ x ∈ (deleteUser st noFaults s).2.users, x.ID ≠ u.ID) ∧
    (∀ p ∈ st.posts, p.UserID = u.ID →
      ∀ x ∈ (deleteUser st noFaults s).2.posts, x.ID ≠ p.ID) ∧
    (∀ p ∈ st.posts, p.UserID = u.ID → ∀ c ∈ st.comments, c.PostID = p.ID →
      ∀ x ∈ (deleteUser st noFaults s).2.comments, x.ID ≠ c.ID) ∧
    (∀ x, x ∈ (deleteUser st noFaults s).2.users ↔ x ∈ st.users ∧ x ≠ u) ∧
    (∀ x, x ∈ (deleteUser st noFaults s).2.posts ↔ x ∈ st.posts ∧ x.UserID ≠ u.ID) ∧
    (∀ x, x ∈ (deleteUser st noFaults s).2.comments ↔
      x ∈ st.comments ∧ ∀ p ∈ st.posts, p.UserID = u.ID → x.PostID ≠ p.ID) ∧
    (∀ su, Atoi su = some (u.ID : Int) →
      getUser (deleteUser st noFaults s).2 noFaults su =
        (⟨404, .dbError .ErrRecordNotFound⟩, (deleteUser st noFaults s).2)) ∧
    (∀ p ∈ st.posts, p.UserID = u.ID → ∀ sp, Atoi sp = some (p.ID : Int) →
      getPost (deleteUser st noFaults s).2 noFaults sp =
        (⟨404, .text "Post not found"⟩, (deleteUser st noFaults s).2)) ∧
    (∀ p ∈ st.posts, p.UserID = u.ID → ∀ c ∈ st.comments, c.PostID = p.ID →
      ∀ sc, Atoi sc = some (c.ID : Int) →
        getComment (deleteUser st noFaults s).2 noFaults sc =
          (⟨404, .text "Comment not found"⟩, (deleteUser st noFaults s).2)) := by
  have hU := deleteUser_users st s u hwf hs hu
  have hP := deleteUser_posts st s u hwf hs hu
  have hC := deleteUser_comments st s u hwf hs hu
  have h1 : ∀ x ∈ (deleteUser st noFaults s).2.users, x.ID ≠ u.ID :=
    fun x hx => ((hU x).1 hx).2
  have h2 : ∀ p ∈ st.posts, p.UserID = u.ID →
      ∀ x ∈ (deleteUser st noFaults s).2.posts, x.ID ≠ p.ID :=
    fun p hp hpu x hx => ((hP x).1 hx).2 p hp hpu
  have h3 : ∀ p ∈ st.posts, p.UserID = u.ID → ∀ c ∈ st.comments, c.PostID = p.ID →
      ∀ x ∈ (deleteUser st noFaults s).2.comments, x.ID ≠ c.ID :=
    fun p hp hpu c hc hcp x hx => ((hC x).1 hx).2 p hp hpu c hc hcp
  refine ⟨by rw [deleteUser_compute st s u hwf hs hu], h1, h2, h3, ?_, ?_, ?_, ?_, ?_, ?_⟩
  · intro x
    rw [hU x]
    constructor
    · rintro ⟨hx, hne⟩
      exact ⟨hx, fun he => hne (by rw [he])⟩
    · rintro ⟨hx, hne⟩
      exact ⟨hx, fun he => hne (eq_of_mem_of_key (fun r : UserRow => r.ID) st.users
        hwf.1.2 x u hx hu he)⟩
  · intro x
    rw [hP x]
    constructor
    · rintro ⟨hx, hall⟩
      exact ⟨hx, fun he => hall x hx he rfl⟩
    · rintro ⟨hx, hne⟩
      refine ⟨hx, fun p hp hpu he => hne ?_⟩
      rw [eq_of_mem_of_key (fun r : PostRow => r.ID) st.posts hwf.2.1.2 x p hx hp he]
      exact hpu
  · intro x
    rw [hC x]
    constructor
    · rintro ⟨hx, hall⟩
      exact ⟨hx, fun p hp hpu he => hall p hp hpu x hx he rfl⟩
    · rintro ⟨hx, hall⟩
      refine ⟨hx, fun p hp hpu c hc hcp he => hall p hp hpu ?_⟩
      rw [eq_of_mem_of_key (fun r : Comment => r.ID) st.comments hwf.2.2.2 x c hx hc he]
      exact hcp
  · intro su hsu
    apply getUser_absent _ su _ hsu
    intro x hx he
    exact h1 x hx (by exact_mod_cast he)
  · intro p hp hpu sp hsp
    apply getPost_absent _ sp _ hsp
    intro x hx he
    exact h2 p hp hpu x hx (by exact_mod_cast he)
  · intro p hp hpu c hc hcp sc hsc
    apply getComment_absent _ sc _ hsc
    intro x hx he
    exact h3 p hp hpu c hc hcp x hx (by exact_mod_cast he)

theorem deleteUser_cascade_witness :
    (deleteUser twoPostStore noFaults "1").1 =
      ⟨200, .text "User and associated data deleted successfully"⟩ ∧
    (∀ x ∈ (deleteUser twoPostStore noFaults "1").2.users, x.ID ≠ 1) ∧
    getPost (deleteUser twoPostStore noFaults "1").2 noFaults "2" =
      (⟨404, .text "Post not found"⟩, (deleteUser twoPostStore noFaults "1").2) ∧
    getComment (deleteUser twoPostStore noFaults "1").2 noFaults "2" =
      (⟨404, .text "Comment not found"⟩, (deleteUser twoPostStore noFaults "1").2) :=
  have h := deleteUser_cascade twoPostStore "1" ⟨1, "A", "a"⟩ (by unfold Store.WF; decide)
    (by decide) (by decide)
  ⟨h.1, h.2.1, h.2.2.2.2.2.2.2.2.1 ⟨2, "U", "D", 1⟩ (by decide) rfl "2" (by decide),
    h.2.2.2.2.2.2.2.2.2 ⟨2, "U", "D", 1⟩ (by decide) rfl ⟨2, "ho", 0, 2⟩ (by decide) rfl "2"
      (by decide)⟩

/-! ## Injected faults on the first storage call -/

/-- Every handler other than `createPost` answers 500 and leaves the store as
it was when its first storage call fails with an infrastructure error. -/
theorem first_call_fault_is_500 (st : Store) (faults : List Bool) (s : String) (n : Int)
    (hs : Atoi s = some n) (hf : nextFault faults = true) (ju : UserJSON) (jp : PostJSON)
    (jc : CommentJSON) :
    createUser st faults (some ju) = (⟨500, .dbError .infrastructure⟩, st) ∧
    getUsers st faults = (⟨500, .dbError .infrastructure⟩, st) ∧
    getUser st faults s = (⟨500, .dbError .infrastructure⟩, st) ∧
    getUserPosts st faults s = (⟨500, .dbError .infrastructure⟩, st) ∧
    deleteUser st faults s = (⟨500, .dbError .infrastructure⟩, st) ∧
    getPost st faults s = (⟨500, .dbError .infrastructure⟩, st) ∧
    getPostComments st faults s = (⟨500, .dbError .infrastructure⟩, st) ∧
    updatePost st faults s (some jp) = (⟨500, .dbError .infrastructure⟩, st) ∧
    deletePost st faults s = (⟨500, .dbError .infrastructure⟩, st) ∧
    createComment st faults (some jc) = (⟨500, .dbError .infrastructure⟩, st) ∧
    getComment st faults s = (⟨500, .dbError .infrastructure⟩, st) ∧
    updateComment st faults s (some jc) = (⟨500, .dbErrorObject .infrastructure⟩, st) ∧
    deleteComment st faults s = (⟨500, .dbError .infrastructure⟩, st) ∧
    createPost st faults (some jp) = (⟨400, .text "Invalid UserID"⟩, st) := by
  refine ⟨?_, ?_, ?_, ?_, ?_, ?_, ?_, ?_, ?_, ?_, ?_, ?_, ?_, ?_⟩
  · simp [createUser, dbCreateUser, hf]
  · simp [getUsers, dbFindUsers, hf]
  · simp [getUser, hs, dbFirstUser, hf]
  · simp [getUserPosts, hs, dbFirstUserPreloadPosts, hf]
  · simp [deleteUser, hs, dbFirstUserPreloadPostsComments, hf]
  · simp [getPost, hs, dbFirstPostPreloadComments, hf]
  · simp [getPostComments, hs, dbFirstPostPreloadComments, hf]
  · simp [updatePost, hs, dbFirstPost, hf]
  · simp [deletePost, hs, dbFirstPost, hf]
  · simp [createComment, dbCreateComment, hf]
  · simp [getComment, hs, dbFirstComment, hf]
  · simp [updateComment, hs, dbSaveComment, hf]
  · simp [deleteComment, hs, dbFirstComment, hf]
  · simp [createPost, dbFirstUser, hf]

/-! ## The store invariant is kept by every handler -/

theorem keys_filter {α : Type} (key : α → Nat) (l : List α) (q : α → Bool)
    (h : (∀ x ∈ l, key x ≠ 0) ∧ (l.map key).Nodup) :
    (∀ x ∈ l.filter q, key x ≠ 0) ∧ ((l.filter q).map key).Nodup :=
  ⟨fun x hx => h.1 x (List.mem_of_mem_filter hx),
    h.2.sublist ((List.filter_sublist l).map key)⟩

theorem keys_append {α : Type} (key : α → Nat) (l : List α) (row : α)
    (h : (∀ x ∈ l, key x ≠ 0) ∧ (l.map key).Nodup) (h0 : key row ≠ 0)
    (hfresh : key row ∉ l.map key) :
    (∀ x ∈ l ++ [row], key x ≠ 0) ∧ ((l ++ [row]).map key).Nodup := by
  constructor
  · intro x hx
    rcases List.mem_append.1 hx with hx | hx
    · exact h.1 x hx
    · have : x = row := by simpa using hx
      rw [this]
      exact h0
  · rw [List.map_append, List.nodup_append]
    refine ⟨h.2, by simp, ?_⟩
    intro a ha hb
    have : a = key row := by simpa using hb
    exact hfresh (this ▸ ha)

theorem keys_upsertBy {α : Type} (key : α → Nat) (l : List α) (row : α)
    (h : (∀ x ∈ l, key x ≠ 0) ∧ (l.map key).Nodup) (h0 : key row ≠ 0) :
    (∀ x ∈ upsertBy key row l, key x ≠ 0) ∧ ((upsertBy key row l).map key).Nodup := by
  unfold upsertBy
  split_ifs with hany
  · have hmap : (l.map (fun r => if key r = key row then row else r)).map key = l.map key := by
      rw [List.map_map]
      apply List.map_congr_left
      intro x _
      by_cases hx : key x = key row
      · simp [hx]
      · simp [hx]
    constructor
    · intro x hx
      rw [List.mem_map] at hx
      obtain ⟨y, hy, hyx⟩ := hx
      by_cases hk : key y = key row
      · simp [hk] at hyx
        rw [← hyx]
        exact h0
      · simp [hk] at hyx
        rw [← hyx]
        exact h.1 y hy
    · rw [hmap]
      exact h.2
  · apply keys_append key l row h h0
    intro hmem
    apply hany
    rw [List.mem_map] at hmem
    obtain ⟨y, hy, hk⟩ := hmem
    rw [List.any_eq_true]
    exact ⟨y, hy, by simp [hk]⟩

theorem deleteCommentsLoop_WF (cs : List Comment) (st : Store) (faults : List Bool)
    (hwf : st.WF) : (deleteCommentsLoop cs st faults).2.1.WF := by
  induction cs generalizing st faults with
  | nil => exact hwf
  | cons c rest ih =>
    unfold deleteCommentsLoop dbDeleteComment
    split_ifs
    · exact hwf
    · exact hwf
    · exact ih _ _ ⟨hwf.1, hwf.2.1, keys_filter (fun r : Comment => r.ID) _ _ hwf.2.2⟩

theorem deleteAllCommentsLoop_WF (ps : List Post) (st : Store) (faults : List Bool)
    (hwf : st.WF) : (deleteAllCommentsLoop ps st faults).2.1.WF := by
  induction ps generalizing st faults with
  | nil => exact hwf
  | cons p rest ih =>
    unfold deleteAllCommentsLoop
    have h1 := deleteCommentsLoop_WF p.Comments st faults hwf
    split
    · rename_i e st1 faults1 heq
      rw [heq] at h1
      exact h1
    · rename_i st1 faults1 heq
      rw [heq] at h1
      exact ih _ _ h1

theorem deletePostsLoop_WF (ps : List Post) (st : Store) (faults : List Bool)
    (hwf : st.WF) : (deletePostsLoop ps st faults).2.1.WF := by
  induction ps generalizing st faults with
  | nil => exact hwf
  | cons p rest ih =>
    unfold deletePostsLoop dbDeletePost
    split_ifs
    · exact hwf
    · exact hwf
    · exact ih _ _ ⟨hwf.1, keys_filter (fun r : PostRow => r.ID) _ _ hwf.2.1, hwf.2.2⟩

theorem dbCreateUser_WF (st st1 : Store) (fault : Bool) (u u1 : User) (hwf : st.WF)
    (h : dbCreateUser st fault u = .ok (u1, st1)) : st1.WF := by
  unfold dbCreateUser at h
  split_ifs at h with h1 h2 h3
  · cases h
    have hf := nextID_fresh (st.users.map (fun r => r.ID))
    exact ⟨keys_append (fun r : UserRow => r.ID) _ _ hwf.1 hf.1 hf.2, hwf.2.1, hwf.2.2⟩
  · cases h
    refine ⟨keys_append (fun r : UserRow => r.ID) _ _ hwf.1 h2 ?_, hwf.2.1, hwf.2.2⟩
    intro hmem
    apply h3
    rw [List.mem_map] at hmem
    obtain ⟨y, hy, hk⟩ := hmem
    rw [List.any_eq_true]
    exact ⟨y, hy, by simpa [User.toRow] using hk⟩

theorem dbCreatePost_WF (st st1 : Store) (fault : Bool) (p p1 : Post) (hwf : st.WF)
    (h : dbCreatePost st fault p = .ok (p1, st1)) : st1.WF := by
  unfold dbCreatePost at h
  split_ifs at h with h1 h2 h3
  · cases h
    have hf := nextID_fresh (st.posts.map (fun r => r.ID))
    exact ⟨hwf.1, keys_append (fun r : PostRow => r.ID) _ _ hwf.2.1 hf.1 hf.2, hwf.2.2⟩
  · cases h
    refine ⟨hwf.1, keys_append (fun r : PostRow => r.ID) _ _ hwf.2.1 h2 ?_, hwf.2.2⟩
    intro hmem
    apply h3
    rw [List.mem_map] at hmem
    obtain ⟨y, hy, hk⟩ := hmem
    rw [List.any_eq_true]
    exact ⟨y, hy, by simpa [Post.toRow] using hk⟩

theorem dbCreateComment_WF (st st1 : Store) (fault : Bool) (c c1 : Comment) (hwf : st.WF)
    (h : dbCreateComment st fault c = .ok (c1, st1)) : st1.WF := by
  unfold dbCreateComment at h
  split_ifs at h with h1 h2 h3
  · cases h
    have hf := nextID_fresh (st.comments.map (fun r => r.ID))
    exact ⟨hwf.1, hwf.2.1, keys_append (fun r : Comment => r.ID) _ _ hwf.2.2 hf.1 hf.2⟩
  · cases h
    refine ⟨hwf.1, hwf.2.1, keys_append (fun r : Comment => r.ID) _ _ hwf.2.2 h2 ?_⟩
    intro hmem
    apply h3
    rw [List.mem_map] at hmem
    obtain ⟨y, hy, hk⟩ := hmem
    rw [List.any_eq_true]
    exact ⟨y, hy, by simpa using hk⟩

theorem dbSavePost_WF (st st1 : Store) (fault : Bool) (p p1 : Post) (hwf : st.WF)
    (h : dbSavePost st fault p = .ok (p1, st1)) : st1.WF := by
  unfold dbSavePost at h
  split_ifs at h with h1 h2
  · cases h
    have hf := nextID_fresh (st.posts.map (fun r => r.ID))
    exact ⟨hwf.1, keys_append (fun r : PostRow => r.ID) _ _ hwf.2.1 hf.1 hf.2, hwf.2.2⟩
  · cases h
    exact ⟨hwf.1, keys_upsertBy (fun r : PostRow => r.ID) _ _ hwf.2.1 h2, hwf.2.2⟩

theorem dbSaveComment_WF (st st1 : Store) (fault : Bool) (c c1 : Comment) (hwf : st.WF)
    (h : dbSaveComment st fault c = .ok (c1, st1)) : st1.WF := by
  unfold dbSaveComment at h
  split_ifs at h with h1 h2
  · cases h
    have hf := nextID_fresh (st.comments.map (fun r => r.ID))
    exact ⟨hwf.1, hwf.2.1, keys_append (fun r : Comment => r.ID) _ _ hwf.2.2 hf.1 hf.2⟩
  · cases h
    exact ⟨hwf.1, hwf.2.1, keys_upsertBy (fun r : Comment => r.ID) _ _ hwf.2.2 h2⟩

theorem deleteUser_WF (st : Store) (faults : List Bool) (s : String) (hwf : st.WF) :
    (deleteUser st faults s).2.WF := by
  unfold deleteUser
  split
  · exact hwf
  · split
    · exact hwf
    · exact hwf
    · rename_i user _
      have h1 := deleteAllCommentsLoop_WF user.Posts st faults.tail hwf
      split
      · rename_i heq
        rw [heq] at h1
        exact h1
      · rename_i st1 faults1 heq
        rw [heq] at h1
        have h2 := deletePostsLoop_WF user.Posts st1 faults1 h1
        split
        · rename_i heq2
          rw [heq2] at h2
          exact h2
        · rename_i st2 faults2 heq2
          rw [heq2] at h2
          unfold dbDeleteUser
          split_ifs
          · exact h2
          · exact h2
          · exact ⟨keys_filter (fun r : UserRow => r.ID) _ _ h2.1, h2.2.1, h2.2.2⟩

/-- The store invariant (identifiers non-zero and unique within a table) holds
of the empty store and is kept by each of the fourteen handlers, whatever the
request and the fault schedule. -/
theorem handlers_keep_WF (st : Store) (faults : List Bool) (s : String)
    (bu : Option UserJSON) (bp : Option PostJSON) (bc : Option CommentJSON) (hwf : st.WF) :
    (createUser st faults bu).2.WF ∧ (getUsers st faults).2.WF ∧
    (getUser st faults s).2.WF ∧ (getUserPosts st faults s).2.WF ∧
    (deleteUser st faults s).2.WF ∧ (createPost st faults bp).2.WF ∧
    (getPost st faults s).2.WF ∧ (getPostComments st faults s).2.WF ∧
    (updatePost st faults s bp).2.WF ∧ (deletePost st faults s).2.WF ∧
    (createComment st faults bc).2.WF ∧ (getComment st faults s).2.WF ∧
    (updateComment st faults s bc).2.WF ∧ (deleteComment st faults s).2.WF := by
  refine ⟨?_, ?_, ?_, ?_, deleteUser_WF st faults s hwf, ?_, ?_, ?_, ?_, ?_, ?_, ?_, ?_, ?_⟩
  · unfold createUser
    split
    · exact hwf
    · dsimp only
      split
      · exact hwf
      · rename_i heq
        exact dbCreateUser_WF _ _ _ _ _ hwf heq
  · unfold getUsers
    split <;> exact hwf
  · rw [getUser_store]
    exact hwf
  · unfold getUserPosts
    split
    · exact hwf
    · split <;> exact hwf
  · unfold createPost
    split
    · exact hwf
    · dsimp only
      split
      · exact hwf
      · split
        · exact hwf
        · rename_i heq
          exact dbCreatePost_WF _ _ _ _ _ hwf heq
  · rw [getPost_store]
    exact hwf
  · unfold getPostComments
    split
    · exact hwf
    · split <;> exact hwf
  · unfold updatePost
    split
    · exact hwf
    · split
      · exact hwf
      · exact hwf
      · split
        · exact hwf
        · dsimp only
          split
          · exact hwf
          · rename_i heq
            exact dbSavePost_WF _ _ _ _ _ hwf heq
  · unfold deletePost
    split
    · exact hwf
    · split
      · exact hwf
      · exact hwf
      · unfold dbDeletePost
        split_ifs
        · exact hwf
        · exact hwf
        · exact ⟨hwf.1, keys_filter (fun r : PostRow => r.ID) _ _ hwf.2.1, hwf.2.2⟩
  · unfold createComment
    split
    · exact hwf
    · dsimp only
      split
      · exact hwf
      · rename_i heq
        exact dbCreateComment_WF _ _ _ _ _ hwf heq
  · rw [getComment_store]
    exact hwf
  · unfold updateComment
    split
    · exact hwf
    · split
      · exact hwf
      · dsimp only
        split
        · exact hwf
        · rename_i heq
          exact dbSaveComment_WF _ _ _ _ _ hwf heq
  · unfold deleteComment
    split
    · exact hwf
    · split
      · exact hwf
      · exact hwf
      · unfold dbDeleteComment
        split_ifs
        · exact hwf
        · exact hwf
        · exact ⟨hwf.1, hwf.2.1, keys_filter (fun r : Comment => r.ID) _ _ hwf.2.2⟩

theorem emptyStore_WF : (⟨[], [], []⟩ : Store).WF := by
  unfold Store.WF
  decide

end MentalArts
